import Mathlib

/-!
Verification development for a single node of a peer object-storage cluster
(Go sources: internal/cluster/node.go, internal/storage/filestore.go,
internal/replication/manager.go).  Go maps are embedded as association lists
(`lookupA`/`upsertA`/`removeA`), wall-clock instants as `Nat` seconds passed
explicitly, float64 `Used/Capacity` ratios as exact rationals extended with
the infinities arising from zero-capacity division (see `utilization`), and
network/disk effects as explicit oracle parameters.
-/

namespace DistSys

/-- Association-list lookup; embeds a read `m[k]` from a Go map. -/
def lookupA {α : Type} (k : String) : List (String × α) → Option α
  | [] => none
  | (k1, v) :: rest => if k1 = k then some v else lookupA k rest

/-- Association-list insert/replace; embeds a Go map assignment `m[k] = v`. -/
def upsertA {α : Type} (k : String) (v : α) : List (String × α) → List (String × α)
  | [] => [(k, v)]
  | (k1, v1) :: rest => if k1 = k then (k, v) :: rest else (k1, v1) :: upsertA k v rest

/-- Association-list removal; embeds Go `delete(m, k)`. -/
def removeA {α : Type} (k : String) (l : List (String × α)) : List (String × α) :=
  l.filter (fun kv => kv.1 != k)

theorem lookupA_upsertA_self {α : Type} (k : String) (v : α) (l : List (String × α)) :
    lookupA k (upsertA k v l) = some v := by
  induction l with
  | nil => simp [lookupA, upsertA]
  | cons kv rest ih =>
    obtain ⟨k1, v1⟩ := kv
    by_cases h : k1 = k
    · simp [lookupA, upsertA, h]
    · simp [lookupA, upsertA, h, ih]

theorem lookupA_upsertA_ne {α : Type} (k q : String) (v : α) (l : List (String × α))
    (h : q ≠ k) : lookupA q (upsertA k v l) = lookupA q l := by
  have hk : ¬ (k = q) := fun hh => h hh.symm
  induction l with
  | nil => simp [lookupA, upsertA, hk]
  | cons kv rest ih =>
    obtain ⟨k1, v1⟩ := kv
    by_cases h1 : k1 = k
    · subst h1
      simp [lookupA, upsertA, hk]
    · simp [lookupA, upsertA, h1, ih]

theorem lookupA_removeA_self {α : Type} (k : String) (l : List (String × α)) :
    lookupA k (removeA k l) = none := by
  induction l with
  | nil => simp [lookupA, removeA]
  | cons kv rest ih =>
    obtain ⟨k1, v1⟩ := kv
    by_cases h : k1 = k
    · simpa [removeA, List.filter_cons, h] using ih
    · simpa [removeA, List.filter_cons, h, lookupA, bne_iff_ne] using ih

theorem lookupA_none_removeA {α : Type} (k q : String) (l : List (String × α))
    (h : lookupA k l = none) : lookupA k (removeA q l) = none := by
  induction l with
  | nil => simp [lookupA, removeA]
  | cons kv rest ih =>
    obtain ⟨k1, v1⟩ := kv
    by_cases h1 : k1 = k
    · simp [lookupA, h1] at h
    · simp only [lookupA, if_neg h1] at h
      by_cases h2 : k1 = q
      · simpa [removeA, List.filter_cons, h2] using ih h
      · simpa [removeA, List.filter_cons, h2, lookupA, h1, bne_iff_ne] using ih h

theorem lookupA_mem_snd {α : Type} (k : String) (v : α) (l : List (String × α))
    (h : lookupA k l = some v) : v ∈ l.map Prod.snd := by
  induction l with
  | nil => simp [lookupA] at h
  | cons kv rest ih =>
    obtain ⟨k1, v1⟩ := kv
    by_cases h1 : k1 = k
    · simp [lookupA, h1] at h
      simp [h]
    · simp only [lookupA, if_neg h1] at h
      simp [ih h]

/-! ## Cluster membership (internal/cluster/node.go) -/

/-- Go struct `cluster.Node` (node.go lines 12-20). -/
structure Node where
  ID : String
  Address : String
  Status : String
  LastSeen : Nat
  Load : ℚ
  Capacity : Int
  Used : Int
deriving DecidableEq, Repr

/-- Go struct `cluster.ClusterManager`: the `nodes` map plus the pointer
`currentNode`.  The map entry for self and `currentNode` alias the same object
at construction; `selfNode` records the object `currentNode` points to, which
no operation mutates afterwards (a later `RegisterNode` under the same ID
rebinds only the map entry, not this pointer). -/
structure ClusterManager where
  nodes : List (String × Node)
  selfNode : Node
deriving DecidableEq, Repr

/-- `NewClusterManager` (node.go lines 29-47); `t` is the construction instant. -/
def NewClusterManager (nodeID nodeAddress : String) (t : Nat) : ClusterManager :=
  let self : Node :=
    { ID := nodeID, Address := nodeAddress, Status := "healthy", LastSeen := t,
      Load := 0, Capacity := 10 * 1024 * 1024 * 1024, Used := 0 }
  { nodes := [(nodeID, self)], selfNode := self }

/-- `RegisterNode` (node.go lines 49-57): sets LastSeen to now and upserts. -/
def RegisterNode (cm : ClusterManager) (node : Node) (t : Nat) : ClusterManager :=
  { cm with nodes := upsertA node.ID { node with LastSeen := t } cm.nodes }

/-- `GetHealthyNodes` (node.go lines 59-71): all nodes with Status healthy,
in map-iteration order (modelled by the association-list order). -/
def GetHealthyNodes (cm : ClusterManager) : List Node :=
  (cm.nodes.map Prod.snd).filter (fun n => n.Status == "healthy")

/-- `GetCurrentNode`. Modelled from the spec: the accessor is called by the
replication manager but its body is not among the given sources; per the spec
exactly one Node is self per process, so it returns the node `currentNode`
points to. -/
def GetCurrentNode (cm : ClusterManager) : Node :=
  cm.selfNode

/-- Value domain of the float64 utilizations compared by the selection scan:
rationals extended below by −Inf (`⊥`) and above by `⊤`. -/
abbrev FloatUtil : Type := WithBot (WithTop ℚ)

/-- `float64(node.Used) / float64(node.Capacity)` (node.go line 84).  With a
nonzero capacity the quotient is finite, modelled as the exact rational.
With Capacity = 0, Go's float64 division yields −Inf when Used < 0
(modelled `⊥`), +Inf when Used > 0 and NaN when Used = 0.  In this scan a
utilization only ever appears on the left of `<` against the running
minimum, which is 1.0 or a previously selected utilization — never NaN or
+Inf — and against every such bound both +Inf and NaN compare false, so
both are modelled as `⊤`. -/
def utilization (n : Node) : FloatUtil :=
  if n.Capacity = 0 then (if n.Used < 0 then ⊥ else ⊤)
  else (((((n.Used : ℚ) / (n.Capacity : ℚ)) : ℚ) : WithTop ℚ) : FloatUtil)

/-- The comparison `utilization < lowestLoad` of node.go line 85. -/
def utBelow (n : Node) (low : FloatUtil) : Bool :=
  decide (utilization n < low)

/-- The selection loop of `SelectNodeForWrite` (node.go lines 83-89), carrying
`bestNode` and `lowestLoad`. -/
def selectLoop : List Node → Option Node → FloatUtil → Option Node
  | [], best, _ => best
  | n :: rest, best, low =>
    if utBelow n low then selectLoop rest (some n) (utilization n)
    else selectLoop rest best low

/-- `SelectNodeForWrite` (node.go lines 73-92). -/
def SelectNodeForWrite (cm : ClusterManager) : Option Node :=
  let nodes := GetHealthyNodes cm
  if nodes.length = 0 then none
  else selectLoop nodes none 1

/-- `SelectNodesForReplication` (node.go lines 94-107); `count` is a Go `int`.
The loop `for i := 0; i < count && i < len(nodes); i++` collects the first
`count` healthy nodes (none when `count` is nonpositive). -/
def SelectNodesForReplication (cm : ClusterManager) (count : Int) : List Node :=
  let nodes := GetHealthyNodes cm
  if (nodes.length : Int) ≤ count then nodes
  else nodes.take count.toNat

/-- One entry of the sweep loop in `performHealthCheck` (node.go lines
125-144): self is skipped; a peer unseen for more than 60s is marked
unhealthy without probing; otherwise the probe outcome (`ping` on the peer
address) decides healthy/unhealthy. -/
def sweepNode (selfID : String) (t : Nat) (ping : String → Bool)
    (kv : String × Node) : String × Node :=
  if kv.1 = selfID then kv
  else if 60 < t - kv.2.LastSeen then (kv.1, { kv.2 with Status := "unhealthy" })
  else if ping kv.2.Address then (kv.1, { kv.2 with Status := "healthy", LastSeen := t })
  else (kv.1, { kv.2 with Status := "unhealthy" })

/-- `performHealthCheck` (node.go lines 119-145). -/
def performHealthCheck (cm : ClusterManager) (t : Nat) (ping : String → Bool) :
    ClusterManager :=
  { cm with nodes := cm.nodes.map (sweepNode cm.selfNode.ID t ping) }

/-! ## Local object store (internal/storage/filestore.go)

The struct definitions of `pkg/models` are not among the given sources.
Modelled from the spec: `StorageObject` carries ID, Key, Size, ContentType,
Checksum, CreatedAt, UpdatedAt, AccessCount, LastAccess, StorageTier,
Metadata and an ordered Replicas list, and `ReplicaInfo` carries NodeID, a
file-path location reference and a Status — exactly the fields filestore.go
reads and writes.  Payload bytes are `List Nat`; the MD5 content hash and the
MD5-of-key-and-time object ID are abstracted as function parameters
`hashBytes` and `idOf` (their outputs are opaque hex strings to the store). -/

/-- Go struct `models.ReplicaInfo`. -/
structure ReplicaInfo where
  NodeID : String
  FilePath : String
  Status : String
deriving DecidableEq, Repr

/-- Go struct `models.StorageObject`. -/
structure StorageObject where
  ID : String
  Key : String
  Size : Int
  ContentType : String
  Checksum : String
  CreatedAt : Nat
  UpdatedAt : Nat
  AccessCount : Int
  LastAccess : Nat
  StorageTier : String
  Metadata : List (String × String)
  Replicas : List ReplicaInfo
deriving DecidableEq, Repr

/-- Outcome of draining an `io.Reader` with `io.Copy`: either the whole
payload, or an error after a written pre-failure portion of the bytes. -/
inductive PayloadStream where
  | ok (bytes : List Nat)
  | fail (written : List Nat)
deriving DecidableEq, Repr

/-- Go struct `storage.FileStore`: base path, the in-memory `objects` index,
plus the two parts of the outside world it owns — the payload files on disk
(`files`, path to bytes) and the last snapshot of the index written to the
metadata document (`persisted`). -/
structure FileStore where
  basePath : String
  objects : List (String × StorageObject)
  files : List (String × List Nat)
  persisted : List (String × StorageObject)
deriving DecidableEq, Repr

/-- `saveMetadata` (filestore.go lines 163-166): rewrites the whole index
document wholesale (write errors are swallowed by the code). -/
def saveMetadata (fs : FileStore) : FileStore :=
  { fs with persisted := fs.objects }

/-- `Put` (filestore.go lines 45-99); `t` is the call instant, `idOf`
abstracts `md5(key + now)` and `hashBytes` the streamed MD5.  `os.Create`
truncates the path; on an `io.Copy` failure the partial file is removed and
the call errors before touching the index; on success the entry is
inserted/replaced and the index persisted. -/
def Put (hashBytes : List Nat → String) (idOf : String → Nat → String)
    (fs : FileStore) (key : String) (data : PayloadStream) (contentType : String)
    (t : Nat) : FileStore × Except String StorageObject :=
  let objectID := idOf key t
  let filePath := fs.basePath ++ "/" ++ objectID
  match data with
  | .fail written =>
    let fs1 := { fs with files := upsertA filePath written fs.files }
    ({ fs1 with files := removeA filePath fs1.files },
      Except.error "failed to write data")
  | .ok bytes =>
    let fs1 := { fs with files := upsertA filePath bytes fs.files }
    let obj : StorageObject :=
      { ID := objectID, Key := key, Size := (bytes.length : Int),
        ContentType := contentType, Checksum := hashBytes bytes,
        CreatedAt := t, UpdatedAt := t, AccessCount := 0, LastAccess := t,
        StorageTier := "hot", Metadata := [],
        Replicas := [{ NodeID := "node-1", FilePath := filePath, Status := "active" }] }
    (saveMetadata { fs1 with objects := upsertA key obj fs1.objects }, Except.ok obj)

/-- `Get` (filestore.go lines 103-124): a missing key errors; otherwise the
access statistics are bumped and the index persisted before the backing file
at `Replicas[0].FilePath` is opened.  (An entry with an empty Replicas list
would make the Go code panic on `Replicas[0]`; entries created by `Put`
always carry one replica.) -/
def Get (fs : FileStore) (key : String) (t : Nat) :
    FileStore × Except String (List Nat × StorageObject) :=
  match lookupA key fs.objects with
  | none => (fs, Except.error ("object not found: " ++ key))
  | some obj =>
    let obj1 := { obj with AccessCount := obj.AccessCount + 1, LastAccess := t }
    let fs1 := saveMetadata { fs with objects := upsertA key obj1 fs.objects }
    (fs1,
      match obj1.Replicas with
      | [] => Except.error "runtime error: index out of range"
      | r :: _ =>
        match lookupA r.FilePath fs1.files with
        | none => Except.error "failed to open file"
        | some bytes => Except.ok (bytes, obj1))

/-- `Delete` (filestore.go lines 128-146): a missing key errors and changes
nothing; otherwise every backing file listed in Replicas is removed, the
entry is dropped and the index persisted. -/
def Delete (fs : FileStore) (key : String) : FileStore × Except String Unit :=
  match lookupA key fs.objects with
  | none => (fs, Except.error ("object not found: " ++ key))
  | some obj =>
    let files1 := obj.Replicas.foldl (fun acc r => removeA r.FilePath acc) fs.files
    (saveMetadata { fs with objects := removeA key fs.objects, files := files1 },
      Except.ok ())

/-! ## Replication coordinator (internal/replication/manager.go) -/

/-- Go struct `replication.ReplicationTask` (manager.go lines 23-32). -/
structure ReplicationTask where
  ObjectID : String
  ObjectKey : String
  SourceNode : String
  TargetNodes : List String
  Status : String
  CreatedAt : Nat
  CompletedAt : Option Nat
  Error : String
deriving DecidableEq, Repr

/-- Go struct `replication.ReplicationManager`: the replication factor plus
the `pendingReplications` task map.  The cluster manager it holds is passed
to each operation explicitly. -/
structure ReplicationManager where
  replicationFactor : Int
  tasks : List (String × ReplicationTask)
deriving DecidableEq, Repr

/-- `NewReplicationManager` (manager.go lines 34-40). -/
def NewReplicationManager (replicationFactor : Int) : ReplicationManager :=
  { replicationFactor := replicationFactor, tasks := [] }

/-- `ReplicateObject` (manager.go lines 42-69): with no selected targets it
errors immediately and the task map is untouched; otherwise a pending task is
recorded and the asynchronous execution is launched.  Returns the new manager
state and the synchronous error, if any. -/
def ReplicateObject (rm : ReplicationManager) (cm : ClusterManager)
    (obj : StorageObject) (t : Nat) : ReplicationManager × Option String :=
  let targetNodes := SelectNodesForReplication cm rm.replicationFactor
  if targetNodes.length = 0 then
    (rm, some "no healthy nodes available for replication")
  else
    let task : ReplicationTask :=
      { ObjectID := obj.ID, ObjectKey := obj.Key,
        SourceNode := (GetCurrentNode cm).ID,
        TargetNodes := targetNodes.map Node.ID,
        Status := "pending", CreatedAt := t, CompletedAt := none, Error := "" }
    ({ rm with tasks := upsertA obj.ID task rm.tasks }, none)

/-- `markTaskFailed` (manager.go lines 157-162). -/
def markTaskFailed (task : ReplicationTask) (errorMsg : String) (t : Nat) :
    ReplicationTask :=
  { task with Status := "failed", Error := errorMsg, CompletedAt := some t }

/-- `replicateToNode` (manager.go lines 120-155): looks the target up among
the currently healthy nodes, then issues the push; `netAck` is the network
oracle giving the per-target acknowledgement outcome.  The descriptor is
threaded through unchanged, mirroring that the Go code only reads it. -/
def replicateToNode (cm : ClusterManager) (nodeID : String) (obj : StorageObject)
    (netAck : String → Bool) : Bool × StorageObject :=
  let nodes := GetHealthyNodes cm
  match nodes.find? (fun n => n.ID == nodeID) with
  | none => (false, obj)
  | some _ => (netAck nodeID, obj)

/-- The concurrent per-target fan-out of `executeReplication` (manager.go
lines 88-104), sequentialised: each step runs `replicateToNode` and bumps the
mutex-protected success counter on a positive acknowledgement. -/
def fanOut (cm : ClusterManager) (netAck : String → Bool)
    (targets : List String) (obj : StorageObject) : StorageObject × Nat :=
  targets.foldl
    (fun acc nID =>
      let res := replicateToNode cm nID acc.1 netAck
      (res.2, if res.1 then acc.2 + 1 else acc.2))
    (obj, 0)

/-- `executeReplication` (manager.go lines 71-118); `bufferOk` is whether
`io.Copy` into the in-memory buffer succeeded, `t` the completion instant.
The task record is a shared pointer, so every mutation is visible through the
task map; the final `Store` call rebinds the same pointer.  Returns the
manager state, the terminal task record and the descriptor after execution. -/
def executeReplication (rm : ReplicationManager) (cm : ClusterManager)
    (task : ReplicationTask) (obj : StorageObject) (bufferOk : Bool)
    (netAck : String → Bool) (t : Nat) :
    ReplicationManager × ReplicationTask × StorageObject :=
  let task1 := { task with Status := "in_progress" }
  if bufferOk = false then
    let task2 := markTaskFailed task1 "Failed to buffer data" t
    ({ rm with tasks := upsertA task2.ObjectID task2 rm.tasks }, task2, obj)
  else
    let res := fanOut cm netAck task1.TargetNodes obj
    let task2 :=
      if res.2 > 0 then { task1 with Status := "completed", CompletedAt := some t }
      else markTaskFailed task1 "Failed to replicate to any target node" t
    ({ rm with tasks := upsertA task2.ObjectID task2 rm.tasks }, task2, res.1)

/-- `GetReplicationStatus` (manager.go lines 164-170). -/
def GetReplicationStatus (rm : ReplicationManager) (objectID : String) :
    Option ReplicationTask :=
  lookupA objectID rm.tasks

/-! ## Supporting lemmas -/

theorem utBelow_iff (n : Node) (low : FloatUtil) :
    utBelow n low = true ↔ utilization n < low := by
  simp [utBelow]

/-- Full characterisation of the `SelectNodeForWrite` scan: either no element
ever beats the running minimum and the initial best survives, or the result
is the last updater, which beats every element before it strictly and every
one after it weakly (in the extended-rational utilization order). -/
theorem selectLoop_char (l : List Node) : ∀ (b : Option Node) (low : FloatUtil),
    (selectLoop l b low = b ∧ ∀ m ∈ l, low ≤ utilization m)
    ∨ (∃ l1 n l2, l = l1 ++ n :: l2 ∧ selectLoop l b low = some n ∧
        utilization n < low ∧
        (∀ m ∈ l1, utilization n < utilization m) ∧
        (∀ m ∈ l2, utilization n ≤ utilization m)) := by
  induction l with
  | nil =>
    intro b low
    left
    simp [selectLoop]
  | cons hd tl ih =>
    intro b low
    by_cases hcond : utBelow hd low = true
    · have hlt : utilization hd < low := (utBelow_iff hd low).mp hcond
      rcases ih (some hd) (utilization hd) with ⟨heq, hall⟩ |
        ⟨l1, n, l2, hsplit, hres, hnlt, hbef, haft⟩
      · right
        refine ⟨[], hd, tl, rfl, ?_, hlt, by simp, ?_⟩
        · simp [selectLoop, hcond, heq]
        · intro m hm
          exact hall m hm
      · right
        refine ⟨hd :: l1, n, l2, by simp [hsplit], ?_,
          lt_trans hnlt hlt, ?_, haft⟩
        · simp [selectLoop, hcond, hres]
        · intro m hm
          rcases List.mem_cons.mp hm with rfl | hm2
          · exact hnlt
          · exact hbef m hm2
    · have hskip : low ≤ utilization hd :=
        le_of_not_lt (fun hh => hcond ((utBelow_iff hd low).mpr hh))
      rcases ih b low with ⟨heq, hall⟩ |
        ⟨l1, n, l2, hsplit, hres, hnlt, hbef, haft⟩
      · left
        constructor
        · simp [selectLoop, hcond, heq]
        · intro m hm
          rcases List.mem_cons.mp hm with rfl | hm2
          · exact hskip
          · exact hall m hm2
      · right
        refine ⟨hd :: l1, n, l2, by simp [hsplit], ?_, hnlt, ?_, haft⟩
        · simp [selectLoop, hcond, hres]
        · intro m hm
          rcases List.mem_cons.mp hm with rfl | hm2
          · exact lt_of_lt_of_le hnlt hskip
          · exact hbef m hm2

theorem selectNodesForReplication_eq (cm : ClusterManager) (n : Nat) :
    SelectNodesForReplication cm (n : Int) =
      (if (GetHealthyNodes cm).length ≤ n then GetHealthyNodes cm
       else (GetHealthyNodes cm).take n) := by
  unfold SelectNodesForReplication
  by_cases h : (GetHealthyNodes cm).length ≤ n
  · have h2 : ((GetHealthyNodes cm).length : Int) ≤ (n : Int) := by exact_mod_cast h
    simp [h, h2]
  · have h2 : ¬ (((GetHealthyNodes cm).length : Int) ≤ (n : Int)) := by exact_mod_cast h
    simp [h, h2]

theorem replicateToNode_snd (cm : ClusterManager) (nodeID : String)
    (obj : StorageObject) (netAck : String → Bool) :
    (replicateToNode cm nodeID obj netAck).2 = obj := by
  cases hfind : (GetHealthyNodes cm).find? (fun n => n.ID == nodeID) <;>
    simp [replicateToNode, hfind]

theorem fanOut_fst (cm : ClusterManager) (netAck : String → Bool) :
    ∀ (targets : List String) (p : StorageObject × Nat),
      (targets.foldl
        (fun acc nID =>
          let res := replicateToNode cm nID acc.1 netAck
          (res.2, if res.1 then acc.2 + 1 else acc.2)) p).1 = p.1 := by
  intro targets
  induction targets with
  | nil => intro p; rfl
  | cons hd tl ih =>
    intro p
    rw [List.foldl_cons, ih]
    simp [replicateToNode_snd]

theorem fanOut_count (cm : ClusterManager) (netAck : String → Bool) :
    ∀ (targets : List String) (obj : StorageObject) (c : Nat),
      (targets.foldl
        (fun acc nID =>
          let res := replicateToNode cm nID acc.1 netAck
          (res.2, if res.1 then acc.2 + 1 else acc.2)) (obj, c)).2 =
      c + (targets.filter
        (fun nID => (replicateToNode cm nID obj netAck).1)).length := by
  intro targets
  induction targets with
  | nil => intro obj c; simp
  | cons hd tl ih =>
    intro obj c
    rw [List.foldl_cons]
    have hsnd : (replicateToNode cm hd obj netAck).2 = obj :=
      replicateToNode_snd cm hd obj netAck
    by_cases hok : (replicateToNode cm hd obj netAck).1 = true
    · simp only [hsnd, hok, if_pos, List.filter_cons]
      rw [ih]
      simp [hok]
      omega
    · simp only [hsnd, List.filter_cons]
      rw [if_neg (by simpa using hok), ih]
      simp [hok]

theorem foldl_removeA_none (p : String) :
    ∀ (rs : List ReplicaInfo) (files : List (String × List Nat)),
      lookupA p files = none →
      lookupA p (rs.foldl (fun acc r => removeA r.FilePath acc) files) = none := by
  intro rs
  induction rs with
  | nil => intro files h; simpa using h
  | cons hd tl ih =>
    intro files h
    rw [List.foldl_cons]
    exact ih _ (lookupA_none_removeA p hd.FilePath files h)

theorem foldl_removeA_mem (r : ReplicaInfo) :
    ∀ (rs : List ReplicaInfo) (files : List (String × List Nat)), r ∈ rs →
      lookupA r.FilePath (rs.foldl (fun acc q => removeA q.FilePath acc) files) = none := by
  intro rs
  induction rs with
  | nil => intro files h; simp at h
  | cons hd tl ih =>
    intro files h
    rw [List.foldl_cons]
    rcases List.mem_cons.mp h with rfl | h2
    · exact foldl_removeA_none r.FilePath tl _ (lookupA_removeA_self r.FilePath files)
    · exact ih _ h2

theorem sweepNode_fst (selfID : String) (t : Nat) (ping : String → Bool)
    (kv : String × Node) : (sweepNode selfID t ping kv).1 = kv.1 := by
  unfold sweepNode
  split
  · rfl
  · split
    · rfl
    · split <;> rfl

theorem lookupA_map_sweep (selfID : String) (t : Nat) (ping : String → Bool) :
    ∀ (l : List (String × Node)),
      lookupA selfID (l.map (sweepNode selfID t ping)) = lookupA selfID l := by
  intro l
  induction l with
  | nil => rfl
  | cons kv rest ih =>
    obtain ⟨k1, v1⟩ := kv
    by_cases h : k1 = selfID
    · subst h
      have hself : sweepNode k1 t ping (k1, v1) = (k1, v1) := by
        simp [sweepNode]
      rw [List.map_cons, hself]
      simp [lookupA]
    · have hfst : (sweepNode selfID t ping (k1, v1)).1 = k1 :=
        sweepNode_fst selfID t ping (k1, v1)
      rw [List.map_cons]
      rcases hs : sweepNode selfID t ping (k1, v1) with ⟨k2, v2⟩
      have hk2 : k2 = k1 := by rw [hs] at hfst; exact hfst
      subst hk2
      simp [lookupA, h, ih]

theorem fanOut_obj (cm : ClusterManager) (netAck : String → Bool)
    (targets : List String) (obj : StorageObject) :
    (fanOut cm netAck targets obj).1 = obj := by
  unfold fanOut
  exact fanOut_fst cm netAck targets (obj, 0)

theorem length_filter_pos_iff {α : Type} (p : α → Bool) (l : List α) :
    0 < (l.filter p).length ↔ (l.any p) = true := by
  rw [List.length_pos_iff_exists_mem, List.any_eq_true]
  constructor
  · rintro ⟨a, ha⟩
    rcases List.mem_filter.mp ha with ⟨h1, h2⟩
    exact ⟨a, h1, h2⟩
  · rintro ⟨a, h1, h2⟩
    exact ⟨a, List.mem_filter.mpr ⟨h1, h2⟩⟩

/-! ## Concrete fixtures -/

/-- A sample stored-object descriptor. -/
def objW : StorageObject :=
  { ID := "obj-1", Key := "report.csv", Size := 3, ContentType := "text/csv",
    Checksum := "c1", CreatedAt := 0, UpdatedAt := 0, AccessCount := 0,
    LastAccess := 2, StorageTier := "hot", Metadata := [],
    Replicas := [{ NodeID := "node-1", FilePath := "/data/obj-1", Status := "active" }] }

/-- A freshly constructed membership state: self only, healthy, no peers. -/
def cmFresh : ClusterManager := NewClusterManager "node-a" "addr-a" 0

/-- A healthy node whose storage is exactly full (Used = Capacity). -/
def nodeFull : Node :=
  { ID := "n1", Address := "a1", Status := "healthy", LastSeen := 0, Load := 0,
    Capacity := 5, Used := 5 }

/-- Membership state whose only node is healthy but exactly full. -/
def cmFull : ClusterManager := { nodes := [("n1", nodeFull)], selfNode := nodeFull }

/-- A healthy node at utilization 1/2. -/
def nodeHalf : Node :=
  { ID := "nh", Address := "ah", Status := "healthy", LastSeen := 0, Load := 0,
    Capacity := 8, Used := 4 }

/-- A healthy node at utilization 1/8. -/
def nodeLow : Node :=
  { ID := "nl", Address := "al", Status := "healthy", LastSeen := 0, Load := 0,
    Capacity := 8, Used := 1 }

/-- Membership state with two healthy nodes of different utilization. -/
def cmPick : ClusterManager :=
  { nodes := [("nh", nodeHalf), ("nl", nodeLow)], selfNode := nodeHalf }

/-- An unhealthy node. -/
def nodeDown : Node :=
  { ID := "nd", Address := "ad", Status := "unhealthy", LastSeen := 0, Load := 0,
    Capacity := 5, Used := 0 }

/-- Membership state with no healthy node at all. -/
def cmDown : ClusterManager := { nodes := [("nd", nodeDown)], selfNode := nodeDown }

/-- A registration request reusing the self node ID with non-healthy status. -/
def rogueNode : Node :=
  { ID := "node-a", Address := "addr-x", Status := "unknown", LastSeen := 0,
    Load := 0, Capacity := 1, Used := 0 }

/-! ## Claims -/

/-- C1 counterexample: in the freshly constructed membership state no peer
node is healthy (there are no peers at all), yet `ReplicateObject` returns no
error and records a task, because the always-healthy self node is selected as
a replication target.  This refutes the claim as stated over peers. -/
theorem replicateObject_selfTarget_cex :
    (cmFresh.nodes.all fun kv =>
      kv.1 == cmFresh.selfNode.ID || !(kv.2.Status == "healthy")) = true ∧
    (ReplicateObject (NewReplicationManager 3) cmFresh objW 5).2 = none ∧
    (ReplicateObject (NewReplicationManager 3) cmFresh objW 5).1.tasks ≠ [] := by
  refine ⟨by decide, by decide, by decide⟩

/-- C1 (amended): if there are zero healthy nodes in the membership table —
peers and self alike — then `ReplicateObject` returns the no-healthy-targets
error and the task map is unchanged.  (With zero healthy peers but the
always-healthy self present, the call instead succeeds, targeting self.) -/
theorem replicateObject_noHealthy (rm : ReplicationManager) (cm : ClusterManager)
    (obj : StorageObject) (t : Nat) (h : GetHealthyNodes cm = []) :
    ReplicateObject rm cm obj t =
      (rm, some "no healthy nodes available for replication") := by
  simp [ReplicateObject, SelectNodesForReplication, h]

/-- Witness for C1: a membership state whose only node is unhealthy makes
`ReplicateObject` fail with the error and leave the task map unchanged. -/
theorem replicateObject_noHealthy_witness :
    ReplicateObject (NewReplicationManager 3) cmDown objW 7 =
      (NewReplicationManager 3, some "no healthy nodes available for replication") :=
  replicateObject_noHealthy (NewReplicationManager 3) cmDown objW 7 (by decide)

/-- C2 counterexample: a membership state with one healthy node whose storage
is exactly full (Used = Capacity, ratio 1.0) has a healthy node, yet
`SelectNodeForWrite` returns none — `lowestLoad` starts at 1.0 and only a
strictly smaller utilization is ever taken.  This refutes the claim that some
node is returned exactly when a healthy node exists. -/
theorem selectNodeForWrite_full_cex :
    GetHealthyNodes cmFull ≠ [] ∧ SelectNodeForWrite cmFull = none := by
  have h1 : utBelow nodeFull 1 = false := by
    have hnot : ¬ (utBelow nodeFull 1 = true) := by
      rw [utBelow_iff]
      intro hlt
      rw [show utilization nodeFull = (((1 : ℚ) : WithTop ℚ) : FloatUtil) by
        norm_num [utilization, nodeFull]] at hlt
      exact absurd hlt (by norm_num)
    simpa using hnot
  have h2 : GetHealthyNodes cmFull = [nodeFull] := rfl
  refine ⟨by rw [h2]; simp, ?_⟩
  simp [SelectNodeForWrite, h2, selectLoop, h1]

/-- C2 (amended): `SelectNodeForWrite` returns some node exactly when at
least one healthy node has float utilization strictly below 1.0 — a finite
Used/Capacity ratio below 1, or the −Inf of a zero-capacity node with
negative Used; the returned node is a healthy node of minimal utilization in
that extended order, and ties are broken by iteration order (the first
minimizer wins, every earlier node being strictly worse).  It returns none
when every healthy node's utilization fails the < 1.0 comparison (ratio at
least 1, or zero capacity with nonnegative Used, giving +Inf or NaN) — in
particular when no healthy node exists. -/
theorem selectNodeForWrite_char (cm : ClusterManager) :
    (SelectNodeForWrite cm = none ↔
      ∀ m ∈ GetHealthyNodes cm, (1 : FloatUtil) ≤ utilization m) ∧
    ∀ n, SelectNodeForWrite cm = some n →
      n.Status = "healthy" ∧ utilization n < 1 ∧
      (∀ m ∈ GetHealthyNodes cm, utilization n ≤ utilization m) ∧
      ∃ l1 l2, GetHealthyNodes cm = l1 ++ n :: l2 ∧
        ∀ m ∈ l1, utilization n < utilization m := by
  have hmain : SelectNodeForWrite cm = selectLoop (GetHealthyNodes cm) none 1 := by
    unfold SelectNodeForWrite
    by_cases hlen : (GetHealthyNodes cm).length = 0
    · have hnil : GetHealthyNodes cm = [] := List.length_eq_zero.mp hlen
      simp [hlen, hnil, selectLoop]
    · simp [hlen]
  rw [hmain]
  rcases selectLoop_char (GetHealthyNodes cm) none 1 with ⟨heq, hall⟩ |
    ⟨l1, n0, l2, hsplit, hres, hnlt, hbef, haft⟩
  · rw [heq]
    constructor
    · exact ⟨fun _ => hall, fun _ => rfl⟩
    · intro n hn
      exact Option.noConfusion hn
  · rw [hres]
    have hn0mem : n0 ∈ GetHealthyNodes cm := by
      rw [hsplit]
      exact List.mem_append_right _ (List.mem_cons_self _ _)
    constructor
    · constructor
      · intro h
        exact Option.noConfusion h
      · intro hforall
        exact absurd hnlt (not_lt.mpr (hforall n0 hn0mem))
    · intro n hn
      injection hn with hn
      subst hn
      refine ⟨?_, hnlt, ?_, l1, l2, hsplit, hbef⟩
      · have hn0f : n0 ∈ List.filter (fun n => n.Status == "healthy")
            (cm.nodes.map Prod.snd) := hn0mem
        have hmem := (List.mem_filter.mp hn0f).2
        simpa using hmem
      · intro m hm
        rw [hsplit] at hm
        rcases List.mem_append.mp hm with hm1 | hm2
        · exact le_of_lt (hbef m hm1)
        · rcases List.mem_cons.mp hm2 with rfl | hm3
          · exact le_refl _
          · exact haft m hm3

/-- A healthy node with zero capacity and negative Used: its float
utilization is −Inf, which always wins the `< lowestLoad` comparison. -/
def nodeNeg : Node :=
  { ID := "ng", Address := "ag", Status := "healthy", LastSeen := 0, Load := 0,
    Capacity := 0, Used := -3 }

/-- Membership state pairing a finite-ratio node with the −Inf node. -/
def cmNeg : ClusterManager :=
  { nodes := [("nh", nodeHalf), ("ng", nodeNeg)], selfNode := nodeHalf }

/-- Witness for C2, at two concrete states: the node at ratio 1/8 is selected
over the one at 1/2, and the −Inf node (zero capacity, negative Used) is
selected over a finite-ratio node; each selected node is healthy with
utilization below 1. -/
theorem selectNodeForWrite_char_witness :
    nodeLow.Status = "healthy" ∧ utilization nodeLow < 1 ∧
    nodeNeg.Status = "healthy" ∧ utilization nodeNeg < 1 := by
  have hA : utBelow nodeHalf 1 = true := by
    rw [utBelow_iff]
    rw [show utilization nodeHalf = (((1 / 2 : ℚ) : WithTop ℚ) : FloatUtil) by
      norm_num [utilization, nodeHalf]]
    norm_num
  have hB : utBelow nodeLow (utilization nodeHalf) = true := by
    rw [utBelow_iff]
    rw [show utilization nodeHalf = (((1 / 2 : ℚ) : WithTop ℚ) : FloatUtil) by
      norm_num [utilization, nodeHalf]]
    rw [show utilization nodeLow = (((1 / 8 : ℚ) : WithTop ℚ) : FloatUtil) by
      norm_num [utilization, nodeLow]]
    norm_num
  have h2 : GetHealthyNodes cmPick = [nodeHalf, nodeLow] := rfl
  have hsel : SelectNodeForWrite cmPick = some nodeLow := by
    simp [SelectNodeForWrite, h2, selectLoop, hA, hB]
  have hC : utBelow nodeNeg (utilization nodeHalf) = true := by
    rw [utBelow_iff]
    rw [show utilization nodeNeg = (⊥ : FloatUtil) by norm_num [utilization, nodeNeg]]
    rw [show utilization nodeHalf = (((1 / 2 : ℚ) : WithTop ℚ) : FloatUtil) by
      norm_num [utilization, nodeHalf]]
    exact WithBot.bot_lt_coe _
  have h3 : GetHealthyNodes cmNeg = [nodeHalf, nodeNeg] := rfl
  have hselNeg : SelectNodeForWrite cmNeg = some nodeNeg := by
    simp [SelectNodeForWrite, h3, selectLoop, hA, hC]
  have h := (selectNodeForWrite_char cmPick).2 nodeLow hsel
  have hn := (selectNodeForWrite_char cmNeg).2 nodeNeg hselNeg
  exact ⟨h.1, h.2.1, hn.1, hn.2.1⟩

/-- C5: `SelectNodesForReplication(n)` returns at most `n` nodes, all of
them healthy; it returns the whole healthy list when at most `n` healthy
nodes exist and the first `n` encountered otherwise. -/
theorem selectNodesForReplication_spec (cm : ClusterManager) (n : Nat) :
    (SelectNodesForReplication cm (n : Int)).length ≤ n ∧
    ((SelectNodesForReplication cm (n : Int)).all fun m => m.Status == "healthy") = true ∧
    SelectNodesForReplication cm (n : Int) =
      (if (GetHealthyNodes cm).length ≤ n then GetHealthyNodes cm
       else (GetHealthyNodes cm).take n) := by
  have hall : ∀ m ∈ GetHealthyNodes cm, (m.Status == "healthy") = true := by
    intro m hm
    have hm2 : m ∈ List.filter (fun n => n.Status == "healthy")
        (cm.nodes.map Prod.snd) := hm
    exact (List.mem_filter.mp hm2).2
  refine ⟨?_, ?_, selectNodesForReplication_eq cm n⟩
  · rw [selectNodesForReplication_eq cm n]
    by_cases h : (GetHealthyNodes cm).length ≤ n
    · rw [if_pos h]
      exact h
    · rw [if_neg h, List.length_take]
      exact min_le_left _ _
  · rw [selectNodesForReplication_eq cm n]
    by_cases h : (GetHealthyNodes cm).length ≤ n
    · rw [if_pos h, List.all_eq_true]
      exact hall
    · rw [if_neg h, List.all_eq_true]
      intro m hm
      exact hall m (List.take_subset _ _ hm)

/-- C10 counterexample: `RegisterNode` called with a descriptor reusing the
self node ID overwrites the self entry with a non-healthy status, after
which `GetHealthyNodes` is empty — so an operation CAN demote self in the
table, refuting the claim as stated. -/
theorem registerSelf_cex :
    GetHealthyNodes (RegisterNode cmFresh rogueNode 5) = [] := by
  decide

/-- Membership states reachable through the cluster operations when
registration never reuses the self node ID (the amendment of C10). -/
inductive Reachable : ClusterManager → Prop where
  | init (nodeID nodeAddress : String) (t : Nat) :
      Reachable (NewClusterManager nodeID nodeAddress t)
  | register {cm : ClusterManager} (node : Node) (t : Nat) (h : Reachable cm)
      (hne : node.ID ≠ cm.selfNode.ID) : Reachable (RegisterNode cm node t)
  | sweep {cm : ClusterManager} (t : Nat) (ping : String → Bool)
      (h : Reachable cm) : Reachable (performHealthCheck cm t ping)

/-- C10 (amended): provided `RegisterNode` is never invoked with the self
node's ID, the membership table always maps the self ID to a node with
Status healthy — inserted healthy at construction, skipped by the health
sweep, never removed — so `GetHealthyNodes` is never empty and
`SelectNodesForReplication(n)` with n ≥ 1 always returns at least one node.
(A registration reusing the self ID can demote the self entry.) -/
theorem self_always_healthy {cm : ClusterManager} (h : Reachable cm) :
    (∃ nd, lookupA cm.selfNode.ID cm.nodes = some nd ∧ nd.Status = "healthy") ∧
    GetHealthyNodes cm ≠ [] ∧
    ∀ count : Int, 1 ≤ count → SelectNodesForReplication cm count ≠ [] := by
  have hinv : ∃ nd, lookupA cm.selfNode.ID cm.nodes = some nd ∧
      nd.Status = "healthy" := by
    induction h with
    | init nodeID nodeAddress t =>
      refine ⟨(NewClusterManager nodeID nodeAddress t).selfNode, ?_, rfl⟩
      simp [NewClusterManager, lookupA]
    | register node t hr hne ih =>
      obtain ⟨nd, hl, hs⟩ := ih
      refine ⟨nd, ?_, hs⟩
      simp only [RegisterNode]
      rw [lookupA_upsertA_ne _ _ _ _ (Ne.symm hne)]
      exact hl
    | sweep t ping hr ih =>
      obtain ⟨nd, hl, hs⟩ := ih
      refine ⟨nd, ?_, hs⟩
      simp only [performHealthCheck]
      rw [lookupA_map_sweep]
      exact hl
  obtain ⟨nd, hl, hs⟩ := hinv
  have hmem : nd ∈ GetHealthyNodes cm := by
    show nd ∈ List.filter (fun n => n.Status == "healthy") (cm.nodes.map Prod.snd)
    refine List.mem_filter.mpr ⟨lookupA_mem_snd _ _ _ hl, ?_⟩
    simp [hs]
  have hne : GetHealthyNodes cm ≠ [] := List.ne_nil_of_mem hmem
  refine ⟨⟨nd, hl, hs⟩, hne, ?_⟩
  intro count hc
  unfold SelectNodesForReplication
  by_cases hcase : ((GetHealthyNodes cm).length : Int) ≤ count
  · simpa [hcase] using hne
  · rw [if_neg hcase]
    intro hcontra
    have hlen := congrArg List.length hcontra
    rw [List.length_take, List.length_nil] at hlen
    have hpos : 0 < (GetHealthyNodes cm).length := List.length_pos.mpr hne
    have htn : 0 < count.toNat := by omega
    omega

/-- Witness for C10: the freshly constructed state is reachable; its healthy
set is nonempty and replica selection with count 3 returns a node. -/
theorem self_always_healthy_witness :
    GetHealthyNodes cmFresh ≠ [] ∧
    SelectNodesForReplication cmFresh 3 ≠ [] := by
  have h := self_always_healthy (Reachable.init "node-a" "addr-a" 0)
  exact ⟨h.2.1, h.2.2 3 (by decide)⟩

/-- C3: a successful `Put(k, bytes, contentType)` followed by `Get(k)` yields
exactly the input bytes, and the Checksum field of the descriptor is the
content hash of those bytes (the MD5 computed while streaming, abstracted as
`hashBytes`). -/
theorem put_get_roundtrip (hashBytes : List Nat → String)
    (idOf : String → Nat → String) (fs : FileStore) (key : String)
    (bytes : List Nat) (contentType : String) (t tg : Nat) :
    ∃ obj : StorageObject,
      (Put hashBytes idOf fs key (PayloadStream.ok bytes) contentType t).2 =
        Except.ok obj ∧
      obj.Checksum = hashBytes bytes ∧
      (Get (Put hashBytes idOf fs key (PayloadStream.ok bytes) contentType t).1
          key tg).2 =
        Except.ok (bytes,
          { obj with AccessCount := obj.AccessCount + 1, LastAccess := tg }) := by
  refine ⟨_, rfl, rfl, ?_⟩
  simp only [Put, Get, saveMetadata]
  rw [lookupA_upsertA_self]
  simp only []
  rw [lookupA_upsertA_self]

/-- C4: when `Put` fails while streaming the payload to disk, the partially
written backing file is removed and the in-memory metadata index (and its
persisted snapshot) is exactly as it was before the call. -/
theorem put_failure_cleanup (hashBytes : List Nat → String)
    (idOf : String → Nat → String) (fs : FileStore) (key : String)
    (written : List Nat) (contentType : String) (t : Nat) :
    (Put hashBytes idOf fs key (PayloadStream.fail written) contentType t).2 =
      Except.error "failed to write data" ∧
    ((Put hashBytes idOf fs key (PayloadStream.fail written) contentType t).1).objects =
      fs.objects ∧
    ((Put hashBytes idOf fs key (PayloadStream.fail written) contentType t).1).persisted =
      fs.persisted ∧
    lookupA (fs.basePath ++ "/" ++ idOf key t)
      ((Put hashBytes idOf fs key (PayloadStream.fail written) contentType t).1).files =
      none := by
  refine ⟨rfl, rfl, rfl, ?_⟩
  simp only [Put]
  exact lookupA_removeA_self _ _

/-- C6: for a key present in the index, `Get` replaces the entry by one whose
AccessCount is exactly one larger and whose LastAccess is the call instant
(at least the prior value under a monotone clock), all other fields
unchanged, and the index is persisted before the byte stream is returned. -/
theorem get_access_stats (fs : FileStore) (key : String) (t : Nat)
    (obj : StorageObject) (hobj : lookupA key fs.objects = some obj)
    (ht : obj.LastAccess ≤ t) :
    lookupA key ((Get fs key t).1).objects =
      some { obj with AccessCount := obj.AccessCount + 1, LastAccess := t } ∧
    ((Get fs key t).1).persisted = ((Get fs key t).1).objects ∧
    obj.LastAccess ≤ ({ obj with AccessCount := obj.AccessCount + 1, LastAccess := t } : StorageObject).LastAccess := by
  simp only [Get, hobj, saveMetadata]
  exact ⟨lookupA_upsertA_self _ _ _, trivial, ht⟩

/-- A stored object fixture for the Get/Delete witnesses. -/
def objAcc : StorageObject :=
  { ID := "o2", Key := "k", Size := 2, ContentType := "text/plain",
    Checksum := "c2", CreatedAt := 0, UpdatedAt := 0, AccessCount := 4,
    LastAccess := 2, StorageTier := "hot", Metadata := [],
    Replicas := [{ NodeID := "node-1", FilePath := "/data/o2", Status := "active" }] }

/-- A file-store fixture holding `objAcc` under key "k". -/
def fsAcc : FileStore :=
  { basePath := "/data", objects := [("k", objAcc)],
    files := [("/data/o2", [7, 8])], persisted := [("k", objAcc)] }

/-- Witness for C6 at a concrete store: the entry's AccessCount goes from 4
to 5, LastAccess to the call instant 9, and the index is persisted. -/
theorem get_access_stats_witness :
    lookupA "k" ((Get fsAcc "k" 9).1).objects =
      some { objAcc with AccessCount := objAcc.AccessCount + 1, LastAccess := 9 } ∧
    ((Get fsAcc "k" 9).1).persisted = ((Get fsAcc "k" 9).1).objects := by
  have h := get_access_stats fsAcc "k" 9 objAcc (by decide) (by decide)
  exact ⟨h.1, h.2.1⟩

/-- C7: `Delete` of a present key succeeds, removes the index entry and every
backing file listed in the entry's Replicas, and a subsequent `Get` fails
not-found; `Delete` of an absent key fails not-found and changes nothing. -/
theorem delete_spec (fs : FileStore) (key : String) (tg : Nat) :
    (∀ obj : StorageObject, lookupA key fs.objects = some obj →
      (Delete fs key).2 = Except.ok () ∧
      lookupA key ((Delete fs key).1).objects = none ∧
      (Get ((Delete fs key).1) key tg).2 =
        Except.error ("object not found: " ++ key) ∧
      ∀ r ∈ obj.Replicas, lookupA r.FilePath ((Delete fs key).1).files = none) ∧
    (lookupA key fs.objects = none →
      Delete fs key = (fs, Except.error ("object not found: " ++ key))) := by
  constructor
  · intro obj hobj
    have hdel1 : ((Delete fs key).1).objects = removeA key fs.objects := by
      simp [Delete, hobj, saveMetadata]
    have hnone : lookupA key ((Delete fs key).1).objects = none := by
      rw [hdel1]
      exact lookupA_removeA_self key fs.objects
    refine ⟨by simp [Delete, hobj], hnone, by simp [Get, hnone], ?_⟩
    intro r hr
    have hfiles : ((Delete fs key).1).files =
        obj.Replicas.foldl (fun acc q => removeA q.FilePath acc) fs.files := by
      simp [Delete, hobj, saveMetadata]
    rw [hfiles]
    exact foldl_removeA_mem r obj.Replicas fs.files hr
  · intro hnone
    simp [Delete, hnone]

/-- Witness for C7 at a concrete store: deleting the present key "k" empties
its entry and its backing file, and deleting an absent key returns the
not-found error with the store unchanged. -/
theorem delete_spec_witness :
    (Delete fsAcc "k").2 = Except.ok () ∧
    lookupA "k" ((Delete fsAcc "k").1).objects = none ∧
    lookupA "/data/o2" ((Delete fsAcc "k").1).files = none ∧
    Delete fsAcc "zz" = (fsAcc, Except.error ("object not found: " ++ "zz")) := by
  have h1 := (delete_spec fsAcc "k" 0).1 objAcc (by decide)
  have h2 := (delete_spec fsAcc "zz" 0).2 (by decide)
  have hr : ({ NodeID := "node-1", FilePath := "/data/o2", Status := "active" } : ReplicaInfo) ∈ objAcc.Replicas := by decide
  exact ⟨h1.1, h1.2.1, h1.2.2.2 _ hr, h2⟩

/-- C8: once every per-target attempt of a replication task has finished,
the task's Status is "completed" exactly when buffering succeeded and at
least one target acknowledged success, and "failed" otherwise (including
when buffering itself failed); CompletedAt is set either way, a failed task
carries a descriptive error, and the terminal record is what the task map
reports. -/
theorem executeReplication_status (rm : ReplicationManager) (cm : ClusterManager)
    (task : ReplicationTask) (obj : StorageObject) (bufferOk : Bool)
    (netAck : String → Bool) (t : Nat) :
    ((executeReplication rm cm task obj bufferOk netAck t).2.1.Status = "completed" ↔
      (bufferOk = true ∧
        (task.TargetNodes.any fun nID => (replicateToNode cm nID obj netAck).1) = true)) ∧
    ((executeReplication rm cm task obj bufferOk netAck t).2.1.Status = "completed" ∨
      (executeReplication rm cm task obj bufferOk netAck t).2.1.Status = "failed") ∧
    (executeReplication rm cm task obj bufferOk netAck t).2.1.CompletedAt = some t ∧
    ((executeReplication rm cm task obj bufferOk netAck t).2.1.Status = "failed" →
      (executeReplication rm cm task obj bufferOk netAck t).2.1.Error ≠ "") ∧
    lookupA task.ObjectID
      (executeReplication rm cm task obj bufferOk netAck t).1.tasks =
      some (executeReplication rm cm task obj bufferOk netAck t).2.1 := by
  cases bufferOk with
  | false =>
    refine ⟨?_, ?_, ?_, ?_, ?_⟩ <;>
      simp [executeReplication, markTaskFailed, lookupA_upsertA_self]
  | true =>
    have hcount : (fanOut cm netAck task.TargetNodes obj).2 =
        (task.TargetNodes.filter fun nID => (replicateToNode cm nID obj netAck).1).length := by
      unfold fanOut
      rw [fanOut_count]
      simp
    by_cases hpos :
        0 < (task.TargetNodes.filter fun nID => (replicateToNode cm nID obj netAck).1).length
    · have hany : (task.TargetNodes.any fun nID => (replicateToNode cm nID obj netAck).1) = true :=
        (length_filter_pos_iff _ _).mp hpos
      refine ⟨?_, ?_, ?_, ?_, ?_⟩ <;>
        simp [executeReplication, hcount, hpos, hany, markTaskFailed, lookupA_upsertA_self]
    · have hany : ¬ ((task.TargetNodes.any fun nID => (replicateToNode cm nID obj netAck).1) = true) := by
        rw [← length_filter_pos_iff]
        exact hpos
      refine ⟨?_, ?_, ?_, ?_, ?_⟩ <;>
        simp [executeReplication, hcount, hpos, hany, markTaskFailed, lookupA_upsertA_self]

/-- A healthy peer node registered beside the fresh self node. -/
def nodeB : Node :=
  { ID := "node-b", Address := "addr-b", Status := "healthy", LastSeen := 0,
    Load := 0, Capacity := 100, Used := 0 }

/-- Membership state with two healthy nodes: self "node-a" and peer "node-b". -/
def cmTwo : ClusterManager := RegisterNode cmFresh nodeB 1

/-- A pending task fanning out to three targets, only two of which exist. -/
def taskW : ReplicationTask :=
  { ObjectID := "obj-1", ObjectKey := "report.csv", SourceNode := "node-a",
    TargetNodes := ["node-a", "node-b", "node-c"], Status := "pending",
    CreatedAt := 5, CompletedAt := none, Error := "" }

/-- A network oracle acknowledging every push. -/
def ackAll : String → Bool := fun _ => true

/-- Witness for C8: with three targets of which exactly two acknowledge (the
third is unknown to the cluster), the task completes, with CompletedAt set. -/
theorem executeReplication_status_witness :
    (executeReplication (NewReplicationManager 3) cmTwo taskW objW true ackAll 9).2.1.Status =
      "completed" ∧
    (executeReplication (NewReplicationManager 3) cmTwo taskW objW true ackAll 9).2.1.CompletedAt =
      some 9 := by
  have h := executeReplication_status (NewReplicationManager 3) cmTwo taskW objW true ackAll 9
  exact ⟨h.1.mpr ⟨rfl, by decide⟩, h.2.2.1⟩

/-- C9: replication execution never modifies the descriptor it was handed —
after the fan-out concludes and the task reaches a terminal status, the
StorageObject (its Replicas list and every other field) is exactly the one
passed to the coordinator; outcomes live only in the task record. -/
theorem executeReplication_frame (rm : ReplicationManager) (cm : ClusterManager)
    (task : ReplicationTask) (obj : StorageObject) (bufferOk : Bool)
    (netAck : String → Bool) (t : Nat) :
    (executeReplication rm cm task obj bufferOk netAck t).2.2 = obj := by
  cases bufferOk with
  | false => rfl
  | true =>
    simp [executeReplication, fanOut_obj]

end DistSys
